import Mathlib

/-!
Shallow embedding of `libs/hwui/TessellationCache.cpp` (Android hwui).

The file models, directly from the source:
  * the cache key types `TessellationCache::Description` and
    `TessellationCache::ShadowDescription` with their Jenkins hashing,
  * the cache entry wrapper `TessellationCache::Buffer` with its
    block-once-then-cache accessors,
  * the tessellation / shadow task records and their processors,
  * the shadow tessellation pipeline `tessellateShadows`,
  * the `TessellationCache` operations `getOrCreateBuffer`, `getSize`,
    `setMaxSize`, `trim`, `clear`, `precacheShadows`, `getShadowBuffers`.

Machine integers are `Nat` with explicit `% 2^32` where 32-bit overflow can
occur; `float` values that take part in arithmetic are modelled as `ℚ`,
while `float` values that are only stored, compared and hashed as raw bits
(the key fields) are modelled by their 32-bit patterns as `Nat`.
External collaborators that live outside this repository (path flattening,
winding tests, the shadow triangulators, the matrix transforms) are
abstracted as fields of a `Geom` record, so theorems quantify over them.
-/

namespace Hwui

/-- A realized tessellation mesh (`VertexBuffer`): the model keeps the two
observable quantities, the number of vertices and the byte size returned by
`VertexBuffer::getSize()`. A freshly constructed buffer is empty. -/
structure VertexBuffer where
  vertexCount : Nat
  byteSize : Nat
  deriving DecidableEq, Repr

/-- A `new VertexBuffer` with nothing in it yet. -/
def emptyVB : VertexBuffer := ⟨0, 0⟩

/-- A 2-d point (`Vertex` / `Vector2`; the source reinterpret-casts between
the two, both being a pair of floats). -/
structure Vertex where
  x : ℚ
  y : ℚ
  deriving DecidableEq

/-- A 3-d point (`Vector3`). -/
structure Vector3 where
  x : ℚ
  y : ℚ
  z : ℚ
  deriving DecidableEq

/-- An axis-aligned rectangle (`Rect`). -/
structure Rect where
  left : ℚ
  top : ℚ
  right : ℚ
  bottom : ℚ
  deriving DecidableEq

/-- A 4x4 transform (`Matrix4`); the cache key only ever copies and compares
its 16 floats (`drawTransform->data`), so the model keeps just the data. -/
structure Matrix4 where
  data : List ℚ
  deriving DecidableEq

/-- An `SkPath`; the cache key stores only its address (`const void* nodeKey`,
never dereferenced), so the model keeps the pointer identity. The path's
geometric content is consulted only through the external collaborators in
`Geom` (flattening, winding, bounds). -/
structure SkPath where
  ptr : Nat
  deriving DecidableEq

/-- The paint attributes `TessellationCache` reads from an `SkPaint`:
`getStrokeCap()`, `getStyle()`, `getStrokeWidth()`. The stroke width is a
float stored and hashed by its raw 32 bits, hence a `Nat` here. -/
structure SkPaint where
  strokeCap : Nat
  style : Nat
  strokeWidth : Nat
  deriving DecidableEq

/-! ## Cache keys and Jenkins hashing -/

/-- `Description::Type::kNone`. -/
def kNone : Nat := 0

/-- `Description::Type::kRoundRect`. -/
def kRoundRect : Nat := 1

/-- `SkPaint::kDefault_Cap` (= `kButt_Cap` = 0). -/
def kDefaultCap : Nat := 0

/-- `SkPaint::kFill_Style` (= 0). -/
def kFillStyle : Nat := 0

/-- The 32-bit pattern of the float `1.0f`, the default stroke width. -/
def floatBitsOne : Nat := 1065353216

/-- Modelled from the spec: the `Shape` union of
`TessellationCache::Description` (declared in `TessellationCache.h`, which is
not under `src/`). Per the spec it holds the rounded-rect parameters
(width, height, corner radii, axis scale factors) — six floats, kept here as
their 32-bit patterns — and every constructor zero-fills all of its bytes
(`memset(&shape, 0, sizeof(Shape))`). -/
structure Shape where
  mWidth : Nat
  mHeight : Nat
  mRx : Nat
  mRy : Nat
  mScaleX : Nat
  mScaleY : Nat
  deriving DecidableEq

/-- The zero-filled `Shape`, as produced by
`memset(&shape, 0, sizeof(Shape))`. -/
def Shape.zero : Shape := ⟨0, 0, 0, 0, 0, 0⟩

/-- `TessellationCache::Description`: the generic-cache key. -/
structure Description where
  type : Nat
  cap : Nat
  style : Nat
  strokeWidth : Nat
  shape : Shape
  deriving DecidableEq

/-- `Description::Description()`: type `kNone`, default cap, fill style,
stroke width `1.0f`, zero-filled shape. -/
def Description.init : Description :=
  ⟨kNone, kDefaultCap, kFillStyle, floatBitsOne, Shape.zero⟩

/-- `Description::Description(Type type)`. -/
def Description.initType (t : Nat) : Description :=
  ⟨t, kDefaultCap, kFillStyle, floatBitsOne, Shape.zero⟩

/-- `Description::Description(Type type, const SkPaint* paint)`. -/
def Description.initTypePaint (t : Nat) (p : SkPaint) : Description :=
  ⟨t, p.strokeCap, p.style, p.strokeWidth, Shape.zero⟩

/-- The key built by `TessellationCache::getRoundRectBuffer`:
`Description entry(Description::kRoundRect, paint)` followed by assignment of
the six `shape.roundRect` fields (width, height, rx, ry and the tessellation
scales extracted from the transform). -/
def roundRectKey (p : SkPaint) (w h rx ry sx sy : Nat) : Description :=
  { Description.initTypePaint kRoundRect p with shape := ⟨w, h, rx, ry, sx, sy⟩ }

/-- The key-construction paths that exist in the source: one of the three
`Description` constructors, optionally followed (for round rects) by the
shape-field assignments of `getRoundRectBuffer`. -/
inductive BuiltKey : Description → Prop
  | init : BuiltKey Description.init
  | initType (t : Nat) : BuiltKey (Description.initType t)
  | initTypePaint (t : Nat) (p : SkPaint) : BuiltKey (Description.initTypePaint t p)
  | roundRect (p : SkPaint) (w h rx ry sx sy : Nat) :
      BuiltKey (roundRectKey p w h rx ry sx sy)

/-- `android::JenkinsHashMix` (libutils): 32-bit mix step
`hash += data; hash += hash << 10; hash ^= hash >> 6`. -/
def jenkinsMix (h d : Nat) : Nat :=
  let a := (h + d) % 4294967296
  let b := (a + a * 1024) % 4294967296
  b ^^^ (b / 64)

/-- `android::JenkinsHashWhiten` (libutils): the final avalanche
`hash += hash << 3; hash ^= hash >> 11; hash += hash << 15`. -/
def jenkinsWhiten (h : Nat) : Nat :=
  let a := (h + h * 8) % 4294967296
  let b := a ^^^ (a / 2048)
  (b + b * 32768) % 4294967296

/-- `android::JenkinsHashMixBytes` over the `Shape` union: mixes the byte
count first, then the bytes four at a time; the union's 24 bytes are the six
32-bit float patterns in declaration order. -/
def jenkinsMixShape (h : Nat) (s : Shape) : Nat :=
  [s.mWidth, s.mHeight, s.mRx, s.mRy, s.mScaleX, s.mScaleY].foldl jenkinsMix
    (jenkinsMix h 24)

/-- `TessellationCache::Description::hash()`: Jenkins-mix the type, cap,
style, the stroke width's raw bits (`android::hash_type(float)` reinterprets
the bits), then every byte of the shape union, then whiten. -/
def Description.hash (d : Description) : Nat :=
  jenkinsWhiten (jenkinsMixShape
    (jenkinsMix (jenkinsMix (jenkinsMix (jenkinsMix 0 d.type) d.cap) d.style)
      d.strokeWidth)
    d.shape)

/-- `TessellationCache::ShadowDescription`: the shadow-cache key, holding the
caster's identity pointer (`nodeKey`) and the 16 floats copied from the draw
transform. Equality covers exactly these two fields. -/
structure ShadowDescription where
  nodeKey : Nat
  matrixData : List ℚ
  deriving DecidableEq

/-- `ShadowDescription(const void* nodeKey, const Matrix4* drawTransform)` as
used by `precacheShadows` and `getShadowBuffers`: the caster perimeter
pointer plus the draw transform's data. -/
def mkShadowKey (caster : SkPath) (drawTransform : Matrix4) : ShadowDescription :=
  ⟨caster.ptr, drawTransform.data⟩

/-! ## LRU cache model

Modelled from the spec: `android::LruCache` (libutils, external to this
repository) with "standard LRU map semantics — access promotes recency".
A cache is a key-value list kept in recency order: the head is the oldest
entry, the tail end the most recent. `get` promotes a hit to most recent,
`put` inserts or overwrites at most recent, `removeOldest` drops the head,
`clear` empties the map (running the removal listener on each entry, which
only frees memory and is invisible to this model). -/

section LruModel

variable {K V : Type} [DecidableEq K]

/-- Find the value stored under a key. -/
def lruLookup (k : K) : List (K × V) → Option V
  | [] => none
  | e :: rest => if e.1 = k then some e.2 else lruLookup k rest

/-- Remove any entry with the given key. -/
def eraseKey (k : K) : List (K × V) → List (K × V)
  | [] => []
  | e :: rest => if e.1 = k then eraseKey k rest else e :: eraseKey k rest

/-- `LruCache::put`: insert or overwrite, at most-recent position. -/
def lruPut (k : K) (v : V) (l : List (K × V)) : List (K × V) :=
  eraseKey k l ++ [(k, v)]

/-- `LruCache::get`: on a hit, promote the entry to most recent. -/
def lruGet (k : K) (l : List (K × V)) : Option V × List (K × V) :=
  match lruLookup k l with
  | some v => (some v, lruPut k v l)
  | none => (none, l)

theorem lruLookup_lruPut_self (k : K) (v : V) (l : List (K × V)) :
    lruLookup k (lruPut k v l) = some v := by
  induction l with
  | nil => simp [lruPut, eraseKey, lruLookup]
  | cons e rest ih =>
      by_cases h : e.1 = k
      · simpa [lruPut, eraseKey, h] using ih
      · simpa [lruPut, eraseKey, lruLookup, h] using ih

theorem mem_eraseKey (k : K) (l : List (K × V)) :
    ∀ e ∈ eraseKey k l, e ∈ l ∧ e.1 ≠ k := by
  induction l with
  | nil => simp [eraseKey]
  | cons a rest ih =>
      by_cases h : a.1 = k
      · intro e he
        rw [eraseKey, if_pos h] at he
        exact ⟨List.mem_cons_of_mem a (ih e he).1, (ih e he).2⟩
      · intro e he
        rw [eraseKey, if_neg h] at he
        rcases List.mem_cons.mp he with rfl | hmem
        · exact ⟨List.mem_cons_self _ _, h⟩
        · exact ⟨List.mem_cons_of_mem a (ih e hmem).1, (ih e hmem).2⟩

theorem mem_lruPut_same_key (k : K) (v : V) (l : List (K × V)) :
    ∀ w, (k, w) ∈ lruPut k v l → w = v := by
  intro w hw
  rcases List.mem_append.mp hw with hl | hr
  · exact absurd rfl (mem_eraseKey k l _ hl).2
  · simpa using hr

end LruModel

/-! ## Shadow tessellation (`tessellateShadows`) -/

/-- The model of `FLT_MAX`, the initial value of the running-minimum fold in
`tessellateShadows` (the largest finite float, `(2 - 2^-23) * 2^127`). -/
def fltMax : ℚ := 2 ^ 128 - 2 ^ 104

/-- `casterRefinementThresholdSquared = 20.0f` (`tessellateShadows`). -/
def casterRefinementThresholdSquared : ℚ := 20

/-- The external geometry collaborators consumed by the shadow pipeline, all
implemented outside this repository's source file:
`PathTessellator::approximatePathOutlineVertices`,
`ShadowTessellator::isClockwisePath` / `centroid2d` /
`tessellateAmbientShadow` / `tessellateSpotShadow`, the `Matrix4` point, Z
and rect mapping, and `SkPath::getBounds`. `shadowMinCasterZ` is modelled
from the spec: the fixed minimum-caster-height constant
`SHADOW_MIN_CASTER_Z`, defined in a header that is not under `src/`; the
spec gives no numeric value, so it stays abstract here. -/
structure Geom where
  approximateOutline : SkPath → ℚ → List Vertex
  isClockwisePath : SkPath → Bool
  centroid2d : List Vertex → Vertex
  mapZ : Matrix4 → Vector3 → ℚ
  mapPoint : Matrix4 → ℚ → ℚ → ℚ × ℚ
  pathBounds : SkPath → Rect
  mapRect : Matrix4 → Rect → Rect
  tessellateAmbientShadow : Bool → List Vector3 → Vector3 → Rect → Rect → ℚ → VertexBuffer
  tessellateSpotShadow : Bool → List Vector3 → Matrix4 → Vector3 → ℚ → Rect → Rect → VertexBuffer
  shadowMinCasterZ : ℚ

/-- `mapPointFakeZ`: the Z coordinate comes from applying the Z-only
transform to the original point, the X/Y coordinates from the 2-d draw
transform. -/
def mapPointFakeZ (geom : Geom) (transformXY transformZ : Matrix4)
    (point : Vector3) : Vector3 :=
  let z := geom.mapZ transformZ point
  let xy := geom.mapPoint transformXY point.x point.y
  ⟨xy.1, xy.2, z⟩

/-- The running minimum `minZ` of `tessellateShadows`:
`float minZ = FLT_MAX;` followed by `minZ = fmin(minZ, casterPolygon[i].z)`
over the mapped polygon. -/
def minZFold (poly : List Vector3) : ℚ :=
  poly.foldl (fun m p => min m p.z) fltMax

/-- The running maximum `maxZ` of `tessellateShadows`. -/
def maxZFold (poly : List Vector3) : ℚ :=
  poly.foldl (fun m p => max m p.z) (-fltMax)

/-- The Z-lift of `tessellateShadows`: if the minimum lifted Z is below the
minimum-caster-height constant, translate every polygon vertex and the
centroid upward in Z by exactly the deficit; otherwise leave both alone. -/
def liftCaster (minCasterZ : ℚ) (poly : List Vector3) (centroid : Vector3) :
    List Vector3 × Vector3 :=
  let minZ := minZFold poly
  if minZ < minCasterZ then
    let casterLift := minCasterZ - minZ
    (poly.map fun p => ⟨p.x, p.y, p.z + casterLift⟩,
     ⟨centroid.x, centroid.y, centroid.z + casterLift⟩)
  else
    (poly, centroid)

/-- `tessellateShadows`: flatten the caster outline, canonicalize winding to
clockwise, bail out on an empty polygon leaving the output buffers
untouched, otherwise lift to 3-d, compute and lift the centroid, apply the
Z correction, map the caster bounds, and run the ambient and spot
triangulators. The two output buffers are in-out parameters in the source;
here they come in as arguments and the (possibly updated) pair is
returned. -/
def tessellateShadows (geom : Geom) (drawTransform : Matrix4)
    (localClip : Rect) (isCasterOpaque : Bool) (casterPerimeter : SkPath)
    (casterTransformXY casterTransformZ : Matrix4) (lightCenter : Vector3)
    (lightRadius : ℚ) (ambientBuffer spotBuffer : VertexBuffer) :
    VertexBuffer × VertexBuffer :=
  let outline := geom.approximateOutline casterPerimeter
    casterRefinementThresholdSquared
  let casterVertices2d :=
    if geom.isClockwisePath casterPerimeter then outline else outline.reverse
  if casterVertices2d.length = 0 then (ambientBuffer, spotBuffer)
  else
    let casterPolygon := casterVertices2d.map fun v =>
      mapPointFakeZ geom casterTransformXY casterTransformZ ⟨v.x, v.y, 0⟩
    let maxZ := maxZFold casterPolygon
    let centroid := geom.centroid2d casterVertices2d
    let centroid3d :=
      mapPointFakeZ geom casterTransformXY casterTransformZ
        ⟨centroid.x, centroid.y, 0⟩
    let lifted := liftCaster geom.shadowMinCasterZ casterPolygon centroid3d
    let casterBounds :=
      geom.mapRect casterTransformXY (geom.pathBounds casterPerimeter)
    (geom.tessellateAmbientShadow isCasterOpaque lifted.1 lifted.2
        casterBounds localClip maxZ,
     geom.tessellateSpotShadow isCasterOpaque lifted.1 drawTransform
        lightCenter lightRadius casterBounds localClip)

/-! ## Tasks, processors and the `Buffer` wrapper -/

/-- `TessellationCache::Tessellator`: the shape-specific tessellation
function a generic task wraps. -/
def Tessellator : Type := Description → SkPaint → VertexBuffer

/-- `TessellationCache::TessellationTask`: a generic tessellation work item;
it deep-copies the description and the paint at construction. `tid` models
the task object's identity. -/
structure TessellationTask where
  tid : Nat
  tessellator : Tessellator
  description : Description
  paint : SkPaint

/-- `TessellationProcessor::onProcess` / `Task::getResult` for a generic
task: the worker runs the tessellator on the task's own description and
paint snapshot and stores the result; `getResult` blocks until that value is
available. The tessellator contract (spec section 1) guarantees a non-null
mesh, so the result is total here; a null mesh would be the fatal
`"Failed to precache"` abort. -/
def tessellationOnProcess (t : TessellationTask) : VertexBuffer :=
  t.tessellator t.description t.paint

/-- `TessellationCache::Buffer`: the generic cache entry. It starts with the
task handle and no mesh (`Buffer(task) : mTask(task), mBuffer(NULL)`), and
`id` models the heap object's identity. -/
structure Buffer where
  id : Nat
  mTask : Option TessellationTask
  mBuffer : Option VertexBuffer

/-- `Buffer::blockOnPrecache`: if the task handle is still held, block on
its result, retain the mesh, and clear the handle; otherwise do nothing. -/
def Buffer.blockOnPrecache (b : Buffer) : Buffer :=
  match b.mTask with
  | some t => { b with mTask := none, mBuffer := some (tessellationOnProcess t) }
  | none => b

/-- `Buffer::getSize`: block once, then read the retained mesh's byte size.
After `blockOnPrecache` the mesh is always present (a missing mesh is the
fatal abort), so the `Option` default is never taken. -/
def Buffer.getSize (b : Buffer) : Nat × Buffer :=
  let b' := b.blockOnPrecache
  ((b'.mBuffer.getD emptyVB).byteSize, b')

/-- `Buffer::getVertexBuffer`: block once, then return the retained mesh. -/
def Buffer.getVertexBuffer (b : Buffer) : VertexBuffer × Buffer :=
  let b' := b.blockOnPrecache
  (b'.mBuffer.getD emptyVB, b')

/-- `ShadowTask`: the shadow work item; it deep-copies every parameter at
construction (draw transform, local clip, opacity, caster perimeter, X/Y
and Z transforms, light center and radius). `tid` models the task object's
identity. -/
structure ShadowTask where
  tid : Nat
  drawTransform : Matrix4
  localClip : Rect
  isOpaque : Bool
  casterPerimeter : SkPath
  transformXY : Matrix4
  transformZ : Matrix4
  lightCenter : Vector3
  lightRadius : ℚ
  deriving DecidableEq

/-- `ShadowProcessor::onProcess` / `Task::getResult` for a shadow task: the
worker allocates two fresh empty vertex buffers, runs `tessellateShadows`
on the task's own parameter snapshot, and stores the resulting
`vertexBuffer_pair_t`; `getResult` blocks until that pair is available.
Both buffers of the pair are always allocated, hence non-null. -/
def shadowOnProcess (geom : Geom) (t : ShadowTask) :
    VertexBuffer × VertexBuffer :=
  tessellateShadows geom t.drawTransform t.localClip t.isOpaque
    t.casterPerimeter t.transformXY t.transformZ t.lightCenter t.lightRadius
    emptyVB emptyVB

/-! ## The cache itself -/

/-- The mutable state of a `TessellationCache` object: the running size
counter `mSize`, the budget `mMaxSize`, the two LRU maps, the log of tasks
handed to each `TaskProcessor` (`mProcessor->add` / `mShadowProcessor->add`),
and the next fresh task identity. The constructor initializes `mSize = 0`
and both caches empty; no operation in the source file ever writes `mSize`
again. -/
structure TessellationCache where
  mSize : Nat
  mMaxSize : Nat
  mCache : List (Description × Buffer)
  mShadowCache : List (ShadowDescription × ShadowTask)
  mProcessorTasks : List TessellationTask
  mShadowProcessorTasks : List ShadowTask
  nextTaskId : Nat

/-- `TessellationCache::getOrCreateBuffer`: look the key up (promoting on a
hit); on a hit return the existing entry unchanged; on a miss build a task
from the key, the tessellator and a copy of the paint, submit it, wrap it
in a fresh `Buffer`, insert under the key and return it. -/
def TessellationCache.getOrCreateBuffer (s : TessellationCache)
    (entry : Description) (tessellator : Tessellator) (paint : SkPaint) :
    Buffer × TessellationCache :=
  match lruGet entry s.mCache with
  | (some buffer, cache') => (buffer, { s with mCache := cache' })
  | (none, _) =>
      let task : TessellationTask := ⟨s.nextTaskId, tessellator, entry, paint⟩
      let buffer : Buffer := ⟨s.nextTaskId, some task, none⟩
      (buffer,
       { s with
          mCache := lruPut entry buffer s.mCache,
          mProcessorTasks := s.mProcessorTasks ++ [task],
          nextTaskId := s.nextTaskId + 1 })

/-- `TessellationCache::getSize`: iterate over every generic-cache entry,
call `Buffer::getSize` on it (which materializes the entry), and accumulate
the byte sizes in a `uint32_t`. -/
def TessellationCache.getSize (s : TessellationCache) :
    Nat × TessellationCache :=
  let folded := s.mCache.foldl
    (fun (acc : Nat × List (Description × Buffer)) e =>
      let r := e.2.getSize
      ((acc.1 + r.1) % 4294967296, acc.2 ++ [(e.1, r.2)]))
    (0, [])
  (folded.1, { s with mCache := folded.2 })

/-- `TessellationCache::setMaxSize`: store the new budget, then
`while (mSize > mMaxSize) mCache.removeOldest()`. The loop body never
changes `mSize`, so the loop either runs zero times (when
`mSize <= maxSize`) or never terminates; divergence is modelled as
`none`. -/
def TessellationCache.setMaxSize (s : TessellationCache) (maxSize : Nat) :
    Option TessellationCache :=
  if s.mSize ≤ maxSize then some { s with mMaxSize := maxSize } else none

/-- The eviction loop of `TessellationCache::trim`:
`while (size > mMaxSize) { size -= peekOldestValue()->getSize();
removeOldest(); }`, on the oldest-first entry list. `size` lives in a
`uint32_t`, so the subtraction wraps modulo `2^32`. Calling
`peekOldestValue()` on an empty cache dereferences null; that (unreachable)
crash is modelled as `none`. -/
def trimLoop (budget : Nat) : Nat → List (Description × Buffer) →
    Option (List (Description × Buffer))
  | size, [] => if size ≤ budget then some [] else none
  | size, e :: rest =>
      if size ≤ budget then some (e :: rest)
      else trimLoop budget
        ((size + 4294967296 - (e.2.getSize.1 % 4294967296)) % 4294967296) rest

/-- `TessellationCache::trim`: recompute the total (materializing every
entry), evict oldest entries until the total is within budget, then
unconditionally clear the whole shadow cache. -/
def TessellationCache.trim (s : TessellationCache) :
    Option TessellationCache :=
  let r := s.getSize
  match trimLoop r.2.mMaxSize r.1 r.2.mCache with
  | some cache' => some { r.2 with mCache := cache', mShadowCache := [] }
  | none => none

/-- `TessellationCache::clear`: drop all entries from both caches. -/
def TessellationCache.clear (s : TessellationCache) : TessellationCache :=
  { s with mCache := [], mShadowCache := [] }

/-- `TessellationCache::precacheShadows`: build the key from the caster
perimeter pointer and the draw transform, always create a new task deep-
copying all eight parameters, submit it to the shadow processor, and insert
it into the shadow cache under the key (`LruCache::put`). -/
def TessellationCache.precacheShadows (s : TessellationCache)
    (drawTransform : Matrix4) (localClip : Rect) (isOpaque : Bool)
    (casterPerimeter : SkPath) (transformXY transformZ : Matrix4)
    (lightCenter : Vector3) (lightRadius : ℚ) : TessellationCache :=
  let key := mkShadowKey casterPerimeter drawTransform
  let task : ShadowTask := ⟨s.nextTaskId, drawTransform, localClip, isOpaque,
    casterPerimeter, transformXY, transformZ, lightCenter, lightRadius⟩
  { s with
      mShadowCache := lruPut key task s.mShadowCache,
      mShadowProcessorTasks := s.mShadowProcessorTasks ++ [task],
      nextTaskId := s.nextTaskId + 1 }

/-- `TessellationCache::getShadowBuffers`: look the key up; if absent, run
`precacheShadows` with the same arguments and look up again; if the entry
is still absent that is the fatal `"shadow not precached"` abort (modelled
as `none`); otherwise block on the task's result and copy the resolved
(ambient, spot) pair out by value. -/
def TessellationCache.getShadowBuffers (s : TessellationCache) (geom : Geom)
    (drawTransform : Matrix4) (localClip : Rect) (isOpaque : Bool)
    (casterPerimeter : SkPath) (transformXY transformZ : Matrix4)
    (lightCenter : Vector3) (lightRadius : ℚ) :
    Option ((VertexBuffer × VertexBuffer) × TessellationCache) :=
  let key := mkShadowKey casterPerimeter drawTransform
  match lruGet key s.mShadowCache with
  | (some task, cache') =>
      some (shadowOnProcess geom task, { s with mShadowCache := cache' })
  | (none, _) =>
      let s1 := s.precacheShadows drawTransform localClip isOpaque
        casterPerimeter transformXY transformZ lightCenter lightRadius
      match lruGet key s1.mShadowCache with
      | (some task, cache') =>
          some (shadowOnProcess geom task, { s1 with mShadowCache := cache' })
      | (none, _) => none

/-- Repeated `getOrCreateBuffer` requests for one key, each with its own
tessellator/paint snapshot, threaded through the cache state; returns the
list of handles handed back to the callers and the final state. -/
def gocCalls (entry : Description) :
    List (Tessellator × SkPaint) → TessellationCache →
    List Buffer × TessellationCache
  | [], s => ([], s)
  | c :: cs, s =>
      let r := s.getOrCreateBuffer entry c.1 c.2
      let rest := gocCalls entry cs r.2
      (r.1 :: rest.1, rest.2)

/-- How many tasks with a given key description were handed to the generic
task processor. -/
def countTasksFor (entry : Description) (l : List TessellationTask) : Nat :=
  (l.filter fun t => decide (t.description = entry)).length

/-! ## Shared concrete values for witnesses -/

/-- A fresh cache as the constructor leaves it: `mSize = 0`, both maps
empty, nothing submitted. -/
def emptyTC : TessellationCache := ⟨0, 100, [], [], [], [], 0⟩

/-- A concrete transform. -/
def mat0 : Matrix4 := ⟨[]⟩

/-- A concrete rectangle. -/
def rect0 : Rect := ⟨0, 0, 0, 0⟩

/-- A concrete light center. -/
def vec0 : Vector3 := ⟨0, 0, 0⟩

/-- A concrete caster path identity. -/
def path0 : SkPath := ⟨0⟩

/-- A default paint snapshot. -/
def paint0 : SkPaint := ⟨0, 0, floatBitsOne⟩

/-- A concrete geometry collaborator bundle whose path flattening yields the
empty outline. -/
def trivialGeom : Geom :=
  ⟨fun _ _ => [], fun _ => true, fun _ => ⟨0, 0⟩, fun _ p => p.z,
   fun _ x y => (x, y), fun _ => rect0, fun _ r => r,
   fun _ _ _ _ _ _ => emptyVB, fun _ _ _ _ _ _ _ => emptyVB, 0⟩

/-- A concrete shadow task. -/
def stask0 : ShadowTask := ⟨0, mat0, rect0, false, path0, mat0, mat0, vec0, 0⟩

/-! ## Claim theorems -/

/-- Claim C8: a generic cache entry follows the one-way Pending → Ready
lifecycle. A freshly built `Buffer` holds the task and no mesh; the first
`getVertexBuffer`/`getSize` call resolves the task, drops the handle, and
retains the resolved mesh; on any entry whose handle is already gone, both
accessors return the retained mesh unchanged and leave the entry exactly as
it is (so it never becomes Pending again). -/
theorem buffer_lifecycle :
    ∀ (t : TessellationTask) (i : Nat),
      (Buffer.mk i (some t) none).mBuffer = none
      ∧ (Buffer.mk i (some t) none).blockOnPrecache
          = Buffer.mk i none (some (tessellationOnProcess t))
      ∧ (Buffer.mk i (some t) none).getVertexBuffer
          = (tessellationOnProcess t,
             Buffer.mk i none (some (tessellationOnProcess t)))
      ∧ (Buffer.mk i (some t) none).getSize
          = ((tessellationOnProcess t).byteSize,
             Buffer.mk i none (some (tessellationOnProcess t)))
      ∧ ∀ b : Buffer, b.mTask = none →
          b.getVertexBuffer = (b.mBuffer.getD emptyVB, b)
          ∧ b.getSize = ((b.mBuffer.getD emptyVB).byteSize, b) := by
  intro t i
  refine ⟨rfl, rfl, rfl, rfl, ?_⟩
  intro b hb
  constructor
  · simp [Buffer.getVertexBuffer, Buffer.blockOnPrecache, hb]
  · simp [Buffer.getSize, Buffer.blockOnPrecache, hb]

/-- Witness for `buffer_lifecycle` at a concrete task and a concrete
already-resolved entry. -/
theorem buffer_lifecycle_witness :
    (Buffer.mk 5 none (some ⟨2, 8⟩)).mTask = none
    ∧ ((Buffer.mk 5 none (some ⟨2, 8⟩)).getVertexBuffer
          = (⟨2, 8⟩, Buffer.mk 5 none (some ⟨2, 8⟩))
        ∧ (Buffer.mk 5 none (some ⟨2, 8⟩)).getSize
          = (8, Buffer.mk 5 none (some ⟨2, 8⟩))) :=
  ⟨rfl,
   (buffer_lifecycle ⟨0, fun _ _ => ⟨2, 8⟩, Description.init, paint0⟩ 5).2.2.2.2
     (Buffer.mk 5 none (some ⟨2, 8⟩)) rfl⟩

/-- Claim C7: `precacheShadows` always creates and submits a new shadow
task and unconditionally overwrites the shadow-cache entry under the key
computed from the caster pointer and draw transform; afterwards the task
reachable under that key is exactly the one this call created, and no other
task is reachable under that key. -/
theorem precacheShadows_always_overwrites :
    ∀ (s : TessellationCache) (dt : Matrix4) (clip : Rect) (op : Bool)
      (path : SkPath) (xy z : Matrix4) (lc : Vector3) (lr : ℚ),
      lruLookup (mkShadowKey path dt)
          (s.precacheShadows dt clip op path xy z lc lr).mShadowCache
        = some ⟨s.nextTaskId, dt, clip, op, path, xy, z, lc, lr⟩
      ∧ (s.precacheShadows dt clip op path xy z lc lr).mShadowProcessorTasks
        = s.mShadowProcessorTasks
            ++ [⟨s.nextTaskId, dt, clip, op, path, xy, z, lc, lr⟩]
      ∧ ∀ u : ShadowTask,
          (mkShadowKey path dt, u)
              ∈ (s.precacheShadows dt clip op path xy z lc lr).mShadowCache →
          u = ⟨s.nextTaskId, dt, clip, op, path, xy, z, lc, lr⟩ := by
  intro s dt clip op path xy z lc lr
  refine ⟨?_, rfl, ?_⟩
  · simpa [TessellationCache.precacheShadows] using
      lruLookup_lruPut_self (mkShadowKey path dt)
        (⟨s.nextTaskId, dt, clip, op, path, xy, z, lc, lr⟩ : ShadowTask)
        s.mShadowCache
  · intro u hu
    exact mem_lruPut_same_key (mkShadowKey path dt) _ s.mShadowCache u
      (by simpa [TessellationCache.precacheShadows] using hu)

/-- Witness for `precacheShadows_always_overwrites` at a concrete cache that
already holds a different task under the same key. -/
theorem precacheShadows_always_overwrites_witness :
    ((mkShadowKey path0 mat0, ShadowTask.mk 9 mat0 rect0 true path0 mat0 mat0 vec0 1)
        ∈ ({ emptyTC with
              mShadowCache := [(mkShadowKey path0 mat0, stask0)],
              nextTaskId := 9 } : TessellationCache).mShadowCache → False)
    ∧ lruLookup (mkShadowKey path0 mat0)
        (TessellationCache.precacheShadows
          { emptyTC with
              mShadowCache := [(mkShadowKey path0 mat0, stask0)],
              nextTaskId := 9 }
          mat0 rect0 true path0 mat0 mat0 vec0 1).mShadowCache
        = some ⟨9, mat0, rect0, true, path0, mat0, mat0, vec0, 1⟩
    ∧ ∀ u : ShadowTask,
        (mkShadowKey path0 mat0, u)
            ∈ (TessellationCache.precacheShadows
                { emptyTC with
                    mShadowCache := [(mkShadowKey path0 mat0, stask0)],
                    nextTaskId := 9 }
                mat0 rect0 true path0 mat0 mat0 vec0 1).mShadowCache →
        u = ⟨9, mat0, rect0, true, path0, mat0, mat0, vec0, 1⟩ :=
  ⟨by decide,
   (precacheShadows_always_overwrites
      { emptyTC with
          mShadowCache := [(mkShadowKey path0 mat0, stask0)], nextTaskId := 9 }
      mat0 rect0 true path0 mat0 mat0 vec0 1).1,
   (precacheShadows_always_overwrites
      { emptyTC with
          mShadowCache := [(mkShadowKey path0 mat0, stask0)], nextTaskId := 9 }
      mat0 rect0 true path0 mat0 mat0 vec0 1).2.2⟩

/-- Claim C10: the shadow cache key covers only the caster identity pointer
and the draw transform's 16 floats, so a `getShadowBuffers` hit returns the
pair computed from the stored task's own parameter snapshot: the current
call's clip, opacity, X/Y transform, Z transform, light center and light
radius do not appear in the result at all. -/
theorem getShadowBuffers_hit_ignores_args :
    ∀ (s : TessellationCache) (geom : Geom) (dt : Matrix4) (path : SkPath)
      (t : ShadowTask),
      lruLookup (mkShadowKey path dt) s.mShadowCache = some t →
      ∀ (clip : Rect) (op : Bool) (xy z : Matrix4) (lc : Vector3) (lr : ℚ),
        s.getShadowBuffers geom dt clip op path xy z lc lr
          = some (shadowOnProcess geom t,
              { s with
                  mShadowCache := lruPut (mkShadowKey path dt) t s.mShadowCache }) := by
  intro s geom dt path t h clip op xy z lc lr
  simp [TessellationCache.getShadowBuffers, lruGet, h]

/-- Witness for `getShadowBuffers_hit_ignores_args`: two hits on the same
stored entry with entirely different clip/opacity/transform/light arguments
return the same pair, computed from the stored snapshot. -/
theorem getShadowBuffers_hit_ignores_args_witness :
    lruLookup (mkShadowKey path0 mat0)
      ({ emptyTC with
          mShadowCache := [(mkShadowKey path0 mat0, stask0)] } :
        TessellationCache).mShadowCache = some stask0
    ∧ TessellationCache.getShadowBuffers
        { emptyTC with mShadowCache := [(mkShadowKey path0 mat0, stask0)] }
        trivialGeom mat0 ⟨1, 1, 2, 2⟩ true path0 ⟨[5]⟩ ⟨[6]⟩ ⟨1, 2, 3⟩ 7
        = some (shadowOnProcess trivialGeom stask0,
            { emptyTC with
                mShadowCache :=
                  lruPut (mkShadowKey path0 mat0) stask0
                    [(mkShadowKey path0 mat0, stask0)] })
    ∧ TessellationCache.getShadowBuffers
        { emptyTC with mShadowCache := [(mkShadowKey path0 mat0, stask0)] }
        trivialGeom mat0 rect0 false path0 mat0 mat0 vec0 0
        = some (shadowOnProcess trivialGeom stask0,
            { emptyTC with
                mShadowCache :=
                  lruPut (mkShadowKey path0 mat0) stask0
                    [(mkShadowKey path0 mat0, stask0)] }) :=
  ⟨by decide,
   getShadowBuffers_hit_ignores_args _ trivialGeom mat0 path0 stask0 (by decide)
     ⟨1, 1, 2, 2⟩ true ⟨[5]⟩ ⟨[6]⟩ ⟨1, 2, 3⟩ 7,
   getShadowBuffers_hit_ignores_args _ trivialGeom mat0 path0 stask0 (by decide)
     rect0 false mat0 mat0 vec0 0⟩

/-- Claim C4: `getShadowBuffers` never reaches the fatal
`"shadow not precached"` branch: for every cache state and every argument
list it returns a materialized (ambient, spot) pair, and when the key was
absent the pair is the one tessellated by the `precacheShadows` fallback
from exactly these arguments. -/
theorem getShadowBuffers_total :
    ∀ (s : TessellationCache) (geom : Geom) (dt : Matrix4) (clip : Rect)
      (op : Bool) (path : SkPath) (xy z : Matrix4) (lc : Vector3) (lr : ℚ),
      (s.getShadowBuffers geom dt clip op path xy z lc lr).isSome = true
      ∧ (lruLookup (mkShadowKey path dt) s.mShadowCache = none →
          (s.getShadowBuffers geom dt clip op path xy z lc lr).map Prod.fst
            = some (shadowOnProcess geom
                ⟨s.nextTaskId, dt, clip, op, path, xy, z, lc, lr⟩)) := by
  intro s geom dt clip op path xy z lc lr
  cases h : lruLookup (mkShadowKey path dt) s.mShadowCache with
  | some t =>
      constructor
      · simp [TessellationCache.getShadowBuffers, lruGet, h]
      · intro h'
        exact absurd h' (by simp)
  | none =>
      have hput :
          lruLookup (mkShadowKey path dt)
            (s.precacheShadows dt clip op path xy z lc lr).mShadowCache
          = some ⟨s.nextTaskId, dt, clip, op, path, xy, z, lc, lr⟩ :=
        (precacheShadows_always_overwrites s dt clip op path xy z lc lr).1
  -- reduce the double lookup
      constructor
      · simp [TessellationCache.getShadowBuffers, lruGet, h, hput]
      · intro _
        simp [TessellationCache.getShadowBuffers, lruGet, h, hput]

/-- Witness for `getShadowBuffers_total` at a fresh cache with no prior
precache for the key. -/
theorem getShadowBuffers_total_witness :
    lruLookup (mkShadowKey path0 mat0) emptyTC.mShadowCache = none
    ∧ (emptyTC.getShadowBuffers trivialGeom mat0 rect0 false path0 mat0 mat0
          vec0 0).isSome = true
    ∧ (emptyTC.getShadowBuffers trivialGeom mat0 rect0 false path0 mat0 mat0
          vec0 0).map Prod.fst
        = some (shadowOnProcess trivialGeom
            ⟨0, mat0, rect0, false, path0, mat0, mat0, vec0, 0⟩) :=
  ⟨rfl,
   (getShadowBuffers_total emptyTC trivialGeom mat0 rect0 false path0 mat0
      mat0 vec0 0).1,
   (getShadowBuffers_total emptyTC trivialGeom mat0 rect0 false path0 mat0
      mat0 vec0 0).2 rfl⟩

/-- Claim C5: if the flattened caster outline has zero points,
`tessellateShadows` aborts immediately, leaving the two output buffers
exactly as they came in — in particular `ShadowProcessor::onProcess`, which
passes two freshly allocated empty buffers, produces zero-vertex ambient
and spot meshes. The statement holds for every collaborator bundle `geom`
with that flattening, so no lifting, centroid, Z-correction, bounds mapping
or triangulation function can influence (or be observed in) the result. -/
theorem tessellateShadows_empty_outline :
    ∀ (geom : Geom) (dt : Matrix4) (clip : Rect) (op : Bool) (path : SkPath)
      (xy z : Matrix4) (lc : Vector3) (lr : ℚ),
      geom.approximateOutline path casterRefinementThresholdSquared = [] →
      (∀ ambientBuffer spotBuffer : VertexBuffer,
          tessellateShadows geom dt clip op path xy z lc lr ambientBuffer
            spotBuffer = (ambientBuffer, spotBuffer))
      ∧ ∀ tid : Nat,
          shadowOnProcess geom ⟨tid, dt, clip, op, path, xy, z, lc, lr⟩
            = (emptyVB, emptyVB) := by
  intro geom dt clip op path xy z lc lr h
  constructor
  · intro ambientBuffer spotBuffer
    simp [tessellateShadows, h]
  · intro tid
    simp [shadowOnProcess, tessellateShadows, h]

/-- Witness for `tessellateShadows_empty_outline` at the concrete
collaborator bundle whose flattening is empty. -/
theorem tessellateShadows_empty_outline_witness :
    trivialGeom.approximateOutline path0 casterRefinementThresholdSquared = []
    ∧ tessellateShadows trivialGeom mat0 rect0 false path0 mat0 mat0 vec0 0
        ⟨3, 12⟩ ⟨4, 16⟩ = (⟨3, 12⟩, ⟨4, 16⟩)
    ∧ shadowOnProcess trivialGeom stask0 = (emptyVB, emptyVB) :=
  ⟨rfl,
   (tessellateShadows_empty_outline trivialGeom mat0 rect0 false path0 mat0
      mat0 vec0 0 rfl).1 ⟨3, 12⟩ ⟨4, 16⟩,
   (tessellateShadows_empty_outline trivialGeom mat0 rect0 false path0 mat0
      mat0 vec0 0 rfl).2 0⟩

theorem foldl_min_le_init (l : List ℚ) (a : ℚ) : l.foldl min a ≤ a := by
  induction l generalizing a with
  | nil => exact le_refl a
  | cons x xs ih => exact (ih (min a x)).trans (min_le_left a x)

theorem foldl_min_le_mem (l : List ℚ) (a x : ℚ) :
    x ∈ l → l.foldl min a ≤ x := by
  induction l generalizing a with
  | nil => intro hx; cases hx
  | cons y ys ih =>
      intro hx
      rcases List.mem_cons.mp hx with rfl | hmem
      · exact (foldl_min_le_init ys (min a x)).trans (min_le_right a x)
      · exact ih (min a y) hmem

theorem foldl_min_choice (l : List ℚ) (a : ℚ) :
    l.foldl min a = a ∨ l.foldl min a ∈ l := by
  induction l generalizing a with
  | nil => exact Or.inl rfl
  | cons y ys ih =>
      rcases ih (min a y) with heq | hmem
      · rw [List.foldl_cons, heq]
        rcases min_choice a y with h | h
        · exact Or.inl h
        · exact Or.inr (by rw [h]; exact List.mem_cons_self y ys)
      · exact Or.inr (List.mem_cons_of_mem y hmem)

theorem minZFold_eq_foldl_map (poly : List Vector3) :
    minZFold poly = (poly.map Vector3.z).foldl min fltMax := by
  rw [minZFold, List.foldl_map]

/-- Claim C6: in the shadow Z-correction of `tessellateShadows`, whenever
the running minimum lifted Z (fold from `FLT_MAX`) is below the
minimum-caster-height constant, every polygon vertex and the centroid are
translated upward in Z by the identical delta (the constant minus the
observed minimum), and afterwards the minimum vertex Z equals the constant
exactly (every vertex is at or above it and some vertex sits exactly on
it); when the minimum is not below the constant, nothing changes. -/
theorem liftCaster_z_correction :
    ∀ (c : ℚ) (poly : List Vector3) (centroid : Vector3), c ≤ fltMax →
      (minZFold poly < c →
        (liftCaster c poly centroid).1
            = poly.map (fun p => ⟨p.x, p.y, p.z + (c - minZFold poly)⟩)
        ∧ (liftCaster c poly centroid).2
            = ⟨centroid.x, centroid.y, centroid.z + (c - minZFold poly)⟩
        ∧ (∀ p ∈ (liftCaster c poly centroid).1, c ≤ p.z)
        ∧ (∃ p ∈ (liftCaster c poly centroid).1, p.z = c))
      ∧ (¬ minZFold poly < c → liftCaster c poly centroid = (poly, centroid)) := by
  intro c poly centroid hc
  constructor
  · intro hlt
    have h1 : (liftCaster c poly centroid).1
        = poly.map (fun p => ⟨p.x, p.y, p.z + (c - minZFold poly)⟩) := by
      simp [liftCaster, hlt]
    have h2 : (liftCaster c poly centroid).2
        = ⟨centroid.x, centroid.y, centroid.z + (c - minZFold poly)⟩ := by
      simp [liftCaster, hlt]
    refine ⟨h1, h2, ?_, ?_⟩
    · intro p hp
      rw [h1] at hp
      rcases List.mem_map.mp hp with ⟨q, hq, rfl⟩
      have hmin : minZFold poly ≤ q.z := by
        rw [minZFold_eq_foldl_map]
        exact foldl_min_le_mem (poly.map Vector3.z) fltMax q.z
          (List.mem_map_of_mem Vector3.z hq)
      show c ≤ q.z + (c - minZFold poly)
      linarith
    · rcases foldl_min_choice (poly.map Vector3.z) fltMax with heq | hmem
      · exfalso
        rw [minZFold_eq_foldl_map, heq] at hlt
        linarith
      · rw [← minZFold_eq_foldl_map] at hmem
        rcases List.mem_map.mp hmem with ⟨q, hq, hqz⟩
        refine ⟨⟨q.x, q.y, q.z + (c - minZFold poly)⟩, ?_, ?_⟩
        · rw [h1]
          exact List.mem_map_of_mem _ hq
        · show q.z + (c - minZFold poly) = c
          rw [hqz]
          ring
  · intro hge
    simp [liftCaster, hge]

/-- Witness for `liftCaster_z_correction`: a one-vertex caster with lifted
Z equal to -1 against constant 0. -/
theorem liftCaster_z_correction_witness :
    (0 : ℚ) ≤ fltMax
    ∧ minZFold [(⟨0, 0, -1⟩ : Vector3)] < 0
    ∧ ((liftCaster 0 [(⟨0, 0, -1⟩ : Vector3)] ⟨5, 5, 2⟩).1
          = [(⟨0, 0, -1⟩ : Vector3)].map
              (fun p => ⟨p.x, p.y, p.z + (0 - minZFold [(⟨0, 0, -1⟩ : Vector3)])⟩)
        ∧ (liftCaster 0 [(⟨0, 0, -1⟩ : Vector3)] ⟨5, 5, 2⟩).2
          = ⟨5, 5, 2 + (0 - minZFold [(⟨0, 0, -1⟩ : Vector3)])⟩
        ∧ (∀ p ∈ (liftCaster 0 [(⟨0, 0, -1⟩ : Vector3)] ⟨5, 5, 2⟩).1, 0 ≤ p.z)
        ∧ (∃ p ∈ (liftCaster 0 [(⟨0, 0, -1⟩ : Vector3)] ⟨5, 5, 2⟩).1, p.z = 0)) :=
  ⟨by norm_num [fltMax],
   by norm_num [minZFold, fltMax],
   (liftCaster_z_correction 0 [(⟨0, 0, -1⟩ : Vector3)] ⟨5, 5, 2⟩
      (by norm_num [fltMax])).1 (by norm_num [minZFold, fltMax])⟩

theorem builtKey_shape_zero (d : Description) (h : BuiltKey d)
    (ht : d.type ≠ kRoundRect) : d.shape = Shape.zero := by
  cases h with
  | init => rfl
  | initType t => rfl
  | initTypePaint t p => rfl
  | roundRect p w hh rx ry sx sy => exact absurd rfl ht

/-- The shape-specific parameters a key logically carries: the six
rounded-rect fields when the key describes a round rect, nothing
otherwise. -/
def shapeParams (d : Description) : Option Shape :=
  if d.type = kRoundRect then some d.shape else none

/-- Claim C9: the key hash is a pure function of the key's logical content.
Any two keys produced by the construction paths in the source (any of the
three constructors, with the round-rect field assignments for round rects)
that agree on type, cap, style, stroke width and shape-specific parameters
hash identically — because every constructor zero-fills the shape union,
the unused shape bytes agree too. -/
theorem description_hash_key_driven :
    ∀ d1 d2 : Description, BuiltKey d1 → BuiltKey d2 →
      d1.type = d2.type → d1.cap = d2.cap → d1.style = d2.style →
      d1.strokeWidth = d2.strokeWidth → shapeParams d1 = shapeParams d2 →
      d1.hash = d2.hash := by
  intro d1 d2 h1 h2 ht hc hs hw hp
  have hshape : d1.shape = d2.shape := by
    by_cases hrr : d1.type = kRoundRect
    · have hrr2 : d2.type = kRoundRect := ht ▸ hrr
      simpa [shapeParams, hrr, hrr2] using hp
    · have hrr2 : d2.type ≠ kRoundRect := fun hx => hrr (ht ▸ hx)
      rw [builtKey_shape_zero d1 h1 hrr, builtKey_shape_zero d2 h2 hrr2]
  have hdd : d1 = d2 := by
    cases d1
    cases d2
    simp_all
  exact congrArg Description.hash hdd

/-- Witness for `description_hash_key_driven`: the default-constructed key
and a key built through the paint-taking constructor with matching paint
attributes hash identically. -/
theorem description_hash_key_driven_witness :
    BuiltKey Description.init
    ∧ BuiltKey (Description.initTypePaint 0 paint0)
    ∧ Description.init.type = (Description.initTypePaint 0 paint0).type
    ∧ shapeParams Description.init = shapeParams (Description.initTypePaint 0 paint0)
    ∧ Description.init.hash = (Description.initTypePaint 0 paint0).hash :=
  ⟨BuiltKey.init, BuiltKey.initTypePaint 0 paint0, rfl, rfl,
   description_hash_key_driven Description.init
     (Description.initTypePaint 0 paint0) BuiltKey.init
     (BuiltKey.initTypePaint 0 paint0) rfl rfl rfl rfl rfl⟩

theorem gocCalls_hit (cs : List (Tessellator × SkPaint)) :
    ∀ (s : TessellationCache) (d : Description) (b : Buffer),
      lruLookup d s.mCache = some b →
      (gocCalls d cs s).1 = List.replicate cs.length b
      ∧ (gocCalls d cs s).2.mProcessorTasks = s.mProcessorTasks
      ∧ lruLookup d (gocCalls d cs s).2.mCache = some b := by
  induction cs with
  | nil => intro s d b h; exact ⟨rfl, rfl, h⟩
  | cons c cs ih =>
      intro s d b h
      have hstep : s.getOrCreateBuffer d c.1 c.2
          = (b, { s with mCache := lruPut d b s.mCache }) := by
        simp [TessellationCache.getOrCreateBuffer, lruGet, h]
      obtain ⟨r1, r2, r3⟩ :=
        ih { s with mCache := lruPut d b s.mCache } d b
          (lruLookup_lruPut_self d b s.mCache)
      refine ⟨?_, ?_, ?_⟩
      · simp only [gocCalls, hstep, r1, List.replicate_succ, List.length_cons]
      · simpa only [gocCalls, hstep] using r2
      · simpa only [gocCalls, hstep] using r3

/-- Claim C1: `getOrCreateBuffer` is purely key-driven. On a hit it returns
the cached entry (pending or ready) and submits nothing, whatever
tessellator and paint snapshot the caller passes; and starting from a state
where the key is absent, any number of requests with that key all receive
the very same entry (the one created by the first request) while exactly
one task for that key is submitted to the processor. -/
theorem getOrCreateBuffer_key_driven :
    (∀ (s : TessellationCache) (d : Description) (tess : Tessellator)
        (paint : SkPaint) (b : Buffer),
        lruLookup d s.mCache = some b →
        s.getOrCreateBuffer d tess paint
          = (b, { s with mCache := lruPut d b s.mCache }))
    ∧ ∀ (s : TessellationCache) (d : Description)
        (c : Tessellator × SkPaint) (cs : List (Tessellator × SkPaint)),
        lruLookup d s.mCache = none →
        (∀ x ∈ (gocCalls d (c :: cs) s).1,
            x = ⟨s.nextTaskId, some ⟨s.nextTaskId, c.1, d, c.2⟩, none⟩)
        ∧ countTasksFor d (gocCalls d (c :: cs) s).2.mProcessorTasks
            = countTasksFor d s.mProcessorTasks + 1 := by
  constructor
  · intro s d tess paint b h
    simp [TessellationCache.getOrCreateBuffer, lruGet, h]
  · intro s d c cs h
    have hstep : s.getOrCreateBuffer d c.1 c.2
        = (⟨s.nextTaskId, some ⟨s.nextTaskId, c.1, d, c.2⟩, none⟩,
           { s with
              mCache := lruPut d
                ⟨s.nextTaskId, some ⟨s.nextTaskId, c.1, d, c.2⟩, none⟩ s.mCache,
              mProcessorTasks := s.mProcessorTasks ++ [⟨s.nextTaskId, c.1, d, c.2⟩],
              nextTaskId := s.nextTaskId + 1 }) := by
      simp [TessellationCache.getOrCreateBuffer, lruGet, h]
    obtain ⟨r1, r2, r3⟩ := gocCalls_hit cs
      { s with
          mCache := lruPut d
            (⟨s.nextTaskId, some ⟨s.nextTaskId, c.1, d, c.2⟩, none⟩ : Buffer)
            s.mCache,
          mProcessorTasks := s.mProcessorTasks ++ [⟨s.nextTaskId, c.1, d, c.2⟩],
          nextTaskId := s.nextTaskId + 1 }
      d (⟨s.nextTaskId, some ⟨s.nextTaskId, c.1, d, c.2⟩, none⟩ : Buffer)
      (lruLookup_lruPut_self d
        (⟨s.nextTaskId, some ⟨s.nextTaskId, c.1, d, c.2⟩, none⟩ : Buffer)
        s.mCache)
    constructor
    · intro x hx
      simp only [gocCalls, hstep] at hx
      rcases List.mem_cons.mp hx with rfl | hx'
      · rfl
      · rw [r1] at hx'
        exact List.eq_of_mem_replicate hx'
    · simp only [gocCalls, hstep]
      rw [r2]
      simp [countTasksFor, List.filter_append]

/-- Witness for `getOrCreateBuffer_key_driven`: a hit on a cached entry
with an unrelated paint, and two same-key requests against a fresh cache
(with two different tessellator/paint snapshots). -/
theorem getOrCreateBuffer_key_driven_witness :
    lruLookup Description.init
        ({ emptyTC with
            mCache := [(Description.init, Buffer.mk 7 none (some ⟨1, 4⟩))] } :
          TessellationCache).mCache = some (Buffer.mk 7 none (some ⟨1, 4⟩))
    ∧ TessellationCache.getOrCreateBuffer
        { emptyTC with
            mCache := [(Description.init, Buffer.mk 7 none (some ⟨1, 4⟩))] }
        Description.init (fun _ _ => emptyVB) ⟨1, 2, 5⟩
        = (Buffer.mk 7 none (some ⟨1, 4⟩),
           { emptyTC with
              mCache := lruPut Description.init (Buffer.mk 7 none (some ⟨1, 4⟩))
                [(Description.init, Buffer.mk 7 none (some ⟨1, 4⟩))] })
    ∧ lruLookup Description.init emptyTC.mCache = none
    ∧ (∀ x ∈ (gocCalls Description.init
          [((fun _ _ => emptyVB : Tessellator), paint0),
           ((fun _ _ => ⟨3, 9⟩ : Tessellator), ⟨1, 2, 5⟩)] emptyTC).1,
        x = ⟨0, some ⟨0, (fun _ _ => emptyVB : Tessellator), Description.init, paint0⟩, none⟩)
    ∧ countTasksFor Description.init
        (gocCalls Description.init
          [((fun _ _ => emptyVB : Tessellator), paint0),
           ((fun _ _ => ⟨3, 9⟩ : Tessellator), ⟨1, 2, 5⟩)] emptyTC).2.mProcessorTasks
        = countTasksFor Description.init emptyTC.mProcessorTasks + 1 :=
  ⟨rfl,
   getOrCreateBuffer_key_driven.1
     { emptyTC with
        mCache := [(Description.init, Buffer.mk 7 none (some ⟨1, 4⟩))] }
     Description.init (fun _ _ => emptyVB) ⟨1, 2, 5⟩
     (Buffer.mk 7 none (some ⟨1, 4⟩)) rfl,
   rfl,
   (getOrCreateBuffer_key_driven.2 emptyTC Description.init
     ((fun _ _ => emptyVB : Tessellator), paint0)
     [((fun _ _ => ⟨3, 9⟩ : Tessellator), ⟨1, 2, 5⟩)] rfl).1,
   (getOrCreateBuffer_key_driven.2 emptyTC Description.init
     ((fun _ _ => emptyVB : Tessellator), paint0)
     [((fun _ _ => ⟨3, 9⟩ : Tessellator), ⟨1, 2, 5⟩)] rfl).2⟩

/-- The concrete scenario refuting claim C2: a cache holding one
materialized 5-byte entry (with the never-updated size counter at its
permanent value 0). -/
def c2State : TessellationCache :=
  ⟨0, 10, [(Description.init, Buffer.mk 0 none (some ⟨1, 5⟩))], [], [], [], 1⟩

/-- Counterexample to claim C2 as stated: `setMaxSize(0)` on a cache whose
entries total 5 bytes terminates without evicting anything — the eviction
loop compares the running counter `mSize` (never written, hence 0) with the
budget, not the actual total — so immediately afterwards the total size is
5, not ≤ 0. -/
theorem setMaxSize_claim_counterexample :
    c2State.setMaxSize 0 = some { c2State with mMaxSize := 0 }
    ∧ ({ c2State with mMaxSize := 0 } : TessellationCache).getSize.1 = 5
    ∧ ¬ ({ c2State with mMaxSize := 0 } : TessellationCache).getSize.1 ≤ 0 := by
  refine ⟨rfl, rfl, ?_⟩
  decide

/-- Claim C2 amended: `setMaxSize(n)` stores the budget `n` and evicts only
while the running size counter `mSize` exceeds `n`; since no operation ever
updates `mSize` from its initial 0, the loop never removes anything and the
cache contents are left untouched (the total byte size may remain above
`n`; only `trim()` enforces the budget). -/
theorem setMaxSize_sets_budget_only :
    ∀ (s : TessellationCache) (n : Nat), s.mSize = 0 →
      s.setMaxSize n = some { s with mMaxSize := n } := by
  intro s n h
  simp [TessellationCache.setMaxSize, h]

/-- Witness for `setMaxSize_sets_budget_only` on the counterexample cache
state. -/
theorem setMaxSize_sets_budget_only_witness :
    c2State.mSize = 0 ∧ c2State.setMaxSize 3 = some { c2State with mMaxSize := 3 } :=
  ⟨rfl, setMaxSize_sets_budget_only c2State 3 rfl⟩

/-- The generic cache contents with every entry materialized, as they are
after `TessellationCache::getSize` has iterated over them. -/
def materializedCache (l : List (Description × Buffer)) :
    List (Description × Buffer) :=
  l.map fun e => (e.1, e.2.blockOnPrecache)

/-- The exact (unwrapped) sum of the realized entry sizes. -/
def cacheTotalSize (l : List (Description × Buffer)) : Nat :=
  (l.map fun e => e.2.getSize.1).sum

theorem blockOnPrecache_idem (b : Buffer) :
    b.blockOnPrecache.blockOnPrecache = b.blockOnPrecache := by
  cases hb : b.mTask <;> simp [Buffer.blockOnPrecache, hb]

theorem getSize_fst_blockOnPrecache (b : Buffer) :
    b.blockOnPrecache.getSize.1 = b.getSize.1 := by
  simp [Buffer.getSize, blockOnPrecache_idem]

theorem cacheTotalSize_materialized (l : List (Description × Buffer)) :
    cacheTotalSize (materializedCache l) = cacheTotalSize l := by
  induction l with
  | nil => rfl
  | cons e rest ih =>
      simp only [cacheTotalSize, materializedCache, List.map_cons,
        List.sum_cons] at ih ⊢
      rw [getSize_fst_blockOnPrecache, ih]

theorem getSize_fold (l : List (Description × Buffer)) :
    ∀ (a : Nat) (acc : List (Description × Buffer)), a < 4294967296 →
      l.foldl
        (fun (acc : Nat × List (Description × Buffer)) e =>
          let r := e.2.getSize
          ((acc.1 + r.1) % 4294967296, acc.2 ++ [(e.1, r.2)]))
        (a, acc)
      = ((a + cacheTotalSize l) % 4294967296, acc ++ materializedCache l) := by
  induction l with
  | nil =>
      intro a acc ha
      simp [cacheTotalSize, materializedCache, Nat.mod_eq_of_lt ha]
  | cons e rest ih =>
      intro a acc ha
      rw [List.foldl_cons]
      have hlt : (a + e.2.getSize.1) % 4294967296 < 4294967296 :=
        Nat.mod_lt _ (by norm_num)
      rw [ih ((a + e.2.getSize.1) % 4294967296) (acc ++ [(e.1, e.2.getSize.2)]) hlt,
        Prod.mk.injEq]
      refine ⟨?_, ?_⟩
      · simp only [cacheTotalSize, List.map_cons, List.sum_cons]
        rw [Nat.mod_add_mod, Nat.add_assoc]
      · simp only [materializedCache, List.map_cons, List.append_assoc,
          List.singleton_append]
        rfl

theorem getSize_spec (s : TessellationCache) :
    s.getSize = (cacheTotalSize s.mCache % 4294967296,
      { s with mCache := materializedCache s.mCache }) := by
  have h := getSize_fold s.mCache 0 [] (by norm_num)
  simp only [TessellationCache.getSize, h, Nat.zero_add, List.nil_append]

theorem trimLoop_spec (budget : Nat) :
    ∀ l : List (Description × Buffer), cacheTotalSize l < 4294967296 →
      ∃ r, trimLoop budget (cacheTotalSize l) l = some r
        ∧ cacheTotalSize r ≤ budget
        ∧ r.IsSuffix l
        ∧ ∀ suf : List (Description × Buffer), suf.IsSuffix l →
            cacheTotalSize suf ≤ budget → suf.length ≤ r.length := by
  intro l
  induction l with
  | nil =>
      intro _
      refine ⟨[], ?_, ?_, List.nil_suffix, ?_⟩
      · simp [trimLoop, cacheTotalSize]
      · simp [cacheTotalSize]
      · intro suf hsuf _
        rw [List.suffix_nil.mp hsuf]
  | cons e rest ih =>
      intro h
      by_cases hb : cacheTotalSize (e :: rest) ≤ budget
      · refine ⟨e :: rest, ?_, hb, List.suffix_refl _, ?_⟩
        · simp [trimLoop, hb]
        · intro suf hsuf _
          exact List.IsSuffix.length_le hsuf
      · have hsz : e.2.getSize.1 + cacheTotalSize rest = cacheTotalSize (e :: rest) := by
          simp [cacheTotalSize]
        have hrest : cacheTotalSize rest < 4294967296 :=
          lt_of_le_of_lt (by omega) h
        obtain ⟨r, hr, h1, h2, h3⟩ := ih hrest
        refine ⟨r, ?_, h1, h2.trans (List.suffix_cons e rest), ?_⟩
        · rw [trimLoop, if_neg hb]
          have hemod : e.2.getSize.1 % 4294967296 = e.2.getSize.1 :=
            Nat.mod_eq_of_lt (by omega)
          rw [hemod]
          have harith : cacheTotalSize (e :: rest) + 4294967296 - e.2.getSize.1
              = cacheTotalSize rest + 4294967296 := by omega
          rw [harith, Nat.add_mod_right, Nat.mod_eq_of_lt hrest]
          exact hr
        · intro suf hsuf hle
          rcases List.suffix_cons_iff.mp hsuf with rfl | hsuf'
          · exact absurd hle hb
          · exact h3 suf hsuf' hle

/-- Claim C3: provided the realized sizes do not overflow a `uint32_t`
accumulator, `trim()` (a) leaves the generic cache holding a suffix of the
(materialized) entry list — evictions strike oldest-first — whose summed
realized size is at or below the budget, stopping as soon as the total is
within budget (no longer suffix satisfies the budget), and (b)
unconditionally leaves the shadow cache empty; the budget itself is
unchanged. -/
theorem trim_spec :
    ∀ s : TessellationCache,
      cacheTotalSize (materializedCache s.mCache) < 4294967296 →
      ∃ s' : TessellationCache, s.trim = some s'
        ∧ cacheTotalSize s'.mCache ≤ s.mMaxSize
        ∧ s'.mCache.IsSuffix (materializedCache s.mCache)
        ∧ (∀ suf : List (Description × Buffer),
            suf.IsSuffix (materializedCache s.mCache) →
            cacheTotalSize suf ≤ s.mMaxSize → suf.length ≤ s'.mCache.length)
        ∧ s'.mShadowCache = []
        ∧ s'.mMaxSize = s.mMaxSize := by
  intro s h
  obtain ⟨r, hr, h1, h2, h3⟩ := trimLoop_spec s.mMaxSize (materializedCache s.mCache) h
  have hM : cacheTotalSize s.mCache < 4294967296 := by
    rw [← cacheTotalSize_materialized]
    exact h
  have hmod : cacheTotalSize s.mCache % 4294967296 = cacheTotalSize s.mCache :=
    Nat.mod_eq_of_lt hM
  refine ⟨{ s with mCache := r, mShadowCache := [] }, ?_, h1, h2, h3, rfl, rfl⟩
  simp only [TessellationCache.trim, getSize_spec s, hmod]
  rw [show cacheTotalSize s.mCache = cacheTotalSize (materializedCache s.mCache) from
    (cacheTotalSize_materialized s.mCache).symm]
  simp only [hr]

/-- Witness for `trim_spec`: a cache over budget (entries of realized sizes
3 and 2 against budget 2) with a non-empty shadow cache. -/
theorem trim_spec_witness :
    cacheTotalSize (materializedCache
      [(Description.init, Buffer.mk 0 none (some ⟨1, 3⟩)),
       (Description.initType 1, Buffer.mk 1 none (some ⟨1, 2⟩))]) < 4294967296
    ∧ ∃ s' : TessellationCache,
        TessellationCache.trim
          ⟨0, 2,
           [(Description.init, Buffer.mk 0 none (some ⟨1, 3⟩)),
            (Description.initType 1, Buffer.mk 1 none (some ⟨1, 2⟩))],
           [(mkShadowKey path0 mat0, stask0)], [], [], 2⟩ = some s'
        ∧ cacheTotalSize s'.mCache ≤ 2
        ∧ s'.mCache.IsSuffix (materializedCache
            [(Description.init, Buffer.mk 0 none (some ⟨1, 3⟩)),
             (Description.initType 1, Buffer.mk 1 none (some ⟨1, 2⟩))])
        ∧ s'.mShadowCache = [] :=
  ⟨by decide,
   match trim_spec
      ⟨0, 2,
       [(Description.init, Buffer.mk 0 none (some ⟨1, 3⟩)),
        (Description.initType 1, Buffer.mk 1 none (some ⟨1, 2⟩))],
       [(mkShadowKey path0 mat0, stask0)], [], [], 2⟩ (by decide) with
   | ⟨s', e1, e2, e3, _, e5, _⟩ => ⟨s', e1, e2, e3, e5⟩⟩

end Hwui
